import Mathlib

/-!
Shallow embedding of the RefPASS league-management system:
the iOS client's data manager (`ContentView.swift`, plus the enhanced
variant in the unnamed Swift source) and the Node server's REST handlers
(unnamed server source).

Identifiers (Swift `UUID`) are modelled as `Nat`, timestamps (Swift
`Date`) as `Nat`; every call to `Date()` in the source is surfaced as an
explicit `now : Nat` parameter.  Network and file I/O outcomes are
surfaced as explicit boolean/`Option` oracle inputs.
-/

namespace RefPASS

/-- `Player` (ContentView.swift): id, name, jerseyNumber, legacy
whole-team attendance flag.  The optional photo blob is omitted (binary
payload, irrelevant to every claim). -/
structure Player where
  id : Nat
  name : String
  jerseyNumber : Nat
  isPresent : Bool
deriving DecidableEq

/-- `Team` (ContentView.swift): id, name, owned player roster, weak
league reference, lastModified timestamp.  The display colour is
omitted (UI-only). -/
structure Team where
  id : Nat
  name : String
  players : List Player
  leagueId : Option Nat
  lastModified : Nat
deriving DecidableEq

/-- `Match.MatchStatus` (ContentView.swift). -/
inductive MatchStatus where
  | scheduled
  | inProgress
  | completed
  | cancelled
deriving DecidableEq

/-- `Match` (ContentView.swift).  The Swift `Set<UUID>` attendance sets
are modelled as lists of ids (set operations below preserve the
no-duplicate discipline that `Set` gives for free). -/
structure Match where
  id : Nat
  homeTeamId : Nat
  awayTeamId : Nat
  scheduledTime : Nat
  field : String
  status : MatchStatus
  homeTeamPresent : Nat
  awayTeamPresent : Nat
  homeTeamPresentPlayers : List Nat
  awayTeamPresentPlayers : List Nat
  homeTeamScore : Option Int
  awayTeamScore : Option Int
deriving DecidableEq

/-- `MatchDay` (ContentView.swift). -/
structure MatchDay where
  id : Nat
  date : Nat
  name : String
  matches' : List Match
  notes : String
  lastModified : Nat
deriving DecidableEq

/-- The client's in-memory `{teams, matchDays}` pair (the `@Published`
state of `LeagueDataManager`, and also the `SyncData` payload). -/
structure AppState where
  teams : List Team
  matchDays : List MatchDay
deriving DecidableEq

/-- `Set(teams.map { $0.id })` — the valid team-id set, as computed at
the top of `validateAndFixTeamReferences` and `validateTeamReferences`. -/
def validTeamIds (teams : List Team) : List Nat :=
  teams.map (fun t => t.id)

/-- The per-match validity test of `validateAndFixTeamReferences`:
`validTeamIds.contains(match.homeTeamId) && validTeamIds.contains(match.awayTeamId)`. -/
def matchHasValidRefs (ids : List Nat) (m : Match) : Bool :=
  ids.contains m.homeTeamId && ids.contains m.awayTeamId

/-- One matchday's pass inside `validateAndFixTeamReferences`: keep only
matches with valid references; touch `lastModified` exactly when the
match count changed. -/
def fixMatchDay (ids : List Nat) (now : Nat) (md : MatchDay) : MatchDay :=
  let kept := md.matches'.filter (matchHasValidRefs ids)
  { md with
    matches' := kept
    lastModified := if kept.length = md.matches'.length then md.lastModified else now }

/-- `validateAndFixTeamReferences` (ContentView.swift lines 1211-1266):
filter invalid matches out of every matchday, then drop every matchday
left with an empty match list.  (The conditional write-back to the
server is a side effect on the network, not on the returned value, and
is not modelled here.) -/
def validateAndFixTeamReferences (teams : List Team) (now : Nat)
    (matchDays : List MatchDay) : List MatchDay :=
  (matchDays.map (fixMatchDay (validTeamIds teams) now)).filter
    (fun md => !md.matches'.isEmpty)

lemma contains_iff_mem {l : List Nat} {a : Nat} : l.contains a = true ↔ a ∈ l := by
  simp

lemma matchHasValidRefs_iff {ids : List Nat} {m : Match} :
    matchHasValidRefs ids m = true ↔ m.homeTeamId ∈ ids ∧ m.awayTeamId ∈ ids := by
  simp [matchHasValidRefs]

/-- Every matchday surviving Reference Validation has only matches whose
team references are valid, and a nonempty match list. -/
lemma mem_validateAndFix {teams : List Team} {now : Nat} {mds : List MatchDay}
    {md : MatchDay} (h : md ∈ validateAndFixTeamReferences teams now mds) :
    (∀ m ∈ md.matches',
        m.homeTeamId ∈ validTeamIds teams ∧ m.awayTeamId ∈ validTeamIds teams)
      ∧ md.matches' ≠ [] := by
  unfold validateAndFixTeamReferences at h
  have h' := List.mem_filter.mp h
  obtain ⟨hmem, hne⟩ := h'
  obtain ⟨md0, _, rfl⟩ := List.mem_map.mp hmem
  constructor
  · intro m hm
    have hpred : matchHasValidRefs (validTeamIds teams) m = true := by
      simpa [fixMatchDay] using (List.mem_filter.mp (by simpa [fixMatchDay] using hm)).2
    exact matchHasValidRefs_iff.mp hpred
  · intro hempty
    simp [hempty] at hne

/-- C1.  Reference Validation leaves only matches whose home and away
team ids are both in the current team id set, and leaves no matchday
with zero matches. -/
theorem C1_reference_validation (teams : List Team) (now : Nat)
    (matchDays : List MatchDay) (md : MatchDay)
    (h : md ∈ validateAndFixTeamReferences teams now matchDays) :
    (∀ m ∈ md.matches',
        m.homeTeamId ∈ validTeamIds teams ∧ m.awayTeamId ∈ validTeamIds teams)
      ∧ md.matches' ≠ [] :=
  mem_validateAndFix h

/-! Concrete sample data (used by the witness theorems). -/

def teamA : Team :=
  { id := 1, name := "Lions FC", players := [], leagueId := none, lastModified := 10 }

def teamB : Team :=
  { id := 2, name := "Eagles United", players := [], leagueId := none, lastModified := 11 }

def teamC : Team :=
  { id := 3, name := "Tigers SC", players := [], leagueId := some 30, lastModified := 12 }

def matchAB : Match :=
  { id := 100, homeTeamId := 1, awayTeamId := 2, scheduledTime := 50, field := "Field A",
    status := MatchStatus.scheduled, homeTeamPresent := 0, awayTeamPresent := 0,
    homeTeamPresentPlayers := [], awayTeamPresentPlayers := [],
    homeTeamScore := none, awayTeamScore := none }

def matchCA : Match :=
  { id := 101, homeTeamId := 3, awayTeamId := 1, scheduledTime := 55, field := "Field B",
    status := MatchStatus.scheduled, homeTeamPresent := 0, awayTeamPresent := 0,
    homeTeamPresentPlayers := [], awayTeamPresentPlayers := [],
    homeTeamScore := none, awayTeamScore := none }

/-- A match whose home team id `9` exists in no sample team collection. -/
def matchDangling : Match :=
  { id := 102, homeTeamId := 9, awayTeamId := 2, scheduledTime := 60, field := "Field C",
    status := MatchStatus.scheduled, homeTeamPresent := 0, awayTeamPresent := 0,
    homeTeamPresentPlayers := [], awayTeamPresentPlayers := [],
    homeTeamScore := none, awayTeamScore := none }

def dayOne : MatchDay :=
  { id := 200, date := 40, name := "Week 1", matches' := [matchAB, matchDangling],
    notes := "", lastModified := 5 }

/-- What Reference Validation makes of `dayOne` against `[teamA, teamB]`
at time 7: the dangling match is gone and `lastModified` was touched. -/
def fixedDayOne : MatchDay :=
  { dayOne with matches' := [matchAB], lastModified := 7 }

/-- Witness for C1: a concrete run on `[teamA, teamB]` where the
dangling match is removed and the surviving matchday is checked. -/
theorem C1_reference_validation_witness :
    (∀ m ∈ fixedDayOne.matches',
        m.homeTeamId ∈ validTeamIds [teamA, teamB]
          ∧ m.awayTeamId ∈ validTeamIds [teamA, teamB])
      ∧ fixedDayOne.matches' ≠ [] :=
  C1_reference_validation [teamA, teamB] 7 [dayOne] fixedDayOne (by decide)

/-- A matchday all of whose matches pass the validity test is returned
unchanged by the per-matchday fixing pass. -/
lemma fixMatchDay_of_all_valid {ids : List Nat} {now : Nat} {md : MatchDay}
    (h : ∀ m ∈ md.matches', matchHasValidRefs ids m = true) :
    fixMatchDay ids now md = md := by
  have hfil : md.matches'.filter (matchHasValidRefs ids) = md.matches' :=
    List.filter_eq_self.mpr h
  simp [fixMatchDay, hfil]

/-- C9.  Reference Validation is idempotent: a second run (at any later
timestamp) on the output of a first run, against the same teams, changes
nothing. -/
theorem C9_validation_idempotent (teams : List Team) (t1 t2 : Nat)
    (mds : List MatchDay) :
    validateAndFixTeamReferences teams t2 (validateAndFixTeamReferences teams t1 mds)
      = validateAndFixTeamReferences teams t1 mds := by
  set r := validateAndFixTeamReferences teams t1 mds with hr
  have hmap : r.map (fixMatchDay (validTeamIds teams) t2) = r := by
    have hpt : ∀ md ∈ r, fixMatchDay (validTeamIds teams) t2 md = id md := by
      intro md hmd
      apply fixMatchDay_of_all_valid
      intro m hm
      exact matchHasValidRefs_iff.mpr ((mem_validateAndFix (hr ▸ hmd)).1 m hm)
    rw [List.map_congr_left hpt, List.map_id]
  have hfil : r.filter (fun md => !md.matches'.isEmpty) = r := by
    apply List.filter_eq_self.mpr
    intro md hmd
    have h2 := (mem_validateAndFix (hr ▸ hmd)).2
    cases hcase : md.matches' <;> simp_all
  show (r.map (fixMatchDay (validTeamIds teams) t2)).filter
      (fun md => !md.matches'.isEmpty) = r
  rw [hmap, hfil]

/-! Team Deletion Cascade (`removeTeam`, `findMatchesReferencingTeam`,
`removeMatchesReferencingTeam`, ContentView.swift lines 699-730 and
1331-1379). -/

/-- `match.homeTeamId == teamId || match.awayTeamId == teamId` — the
reference test used by both cascade helpers. -/
def matchReferencesTeam (tid : Nat) (m : Match) : Bool :=
  m.homeTeamId == tid || m.awayTeamId == tid

/-- `findMatchesReferencingTeam`: the source collects
`(matchDayIndex, matchIndex, match)` triples; only the matches (and in
`removeTeam` only their presence) are consumed, so the model returns the
referencing matches themselves. -/
def findMatchesReferencingTeam (tid : Nat) (mds : List MatchDay) : List Match :=
  (mds.map (fun md => md.matches'.filter (matchReferencesTeam tid))).flatten

/-- One matchday's pass inside `removeMatchesReferencingTeam`: drop the
matches referencing the deleted team; touch `lastModified` exactly when
something was removed. -/
def cascadeMatchDay (tid now : Nat) (md : MatchDay) : MatchDay :=
  let kept := md.matches'.filter (fun m => !matchReferencesTeam tid m)
  { md with
    matches' := kept
    lastModified := if kept.length = md.matches'.length then md.lastModified else now }

/-- `removeMatchesReferencingTeam` (reversed-index loop in the source):
filter every matchday's matches, then drop every matchday whose match
list ended up empty. -/
def removeMatchesReferencingTeam (tid now : Nat) (mds : List MatchDay) : List MatchDay :=
  (mds.map (cascadeMatchDay tid now)).filter (fun md => !md.matches'.isEmpty)

/-- `removeTeam(at:)`: guard the index, cascade over the matchdays only
when at least one match references the doomed team, remove the team.
(The two server uploads at the end are network effects, not state.) -/
def removeTeam (i now : Nat) (st : AppState) : AppState :=
  if h : i < st.teams.length then
    let teamToDelete := st.teams.get ⟨i, h⟩
    let affected := findMatchesReferencingTeam teamToDelete.id st.matchDays
    { teams := st.teams.eraseIdx i
      matchDays :=
        if affected.isEmpty then st.matchDays
        else removeMatchesReferencingTeam teamToDelete.id now st.matchDays }
  else st

/-- All matches of a matchday collection, in order. -/
def allMatches (mds : List MatchDay) : List Match :=
  (mds.map (fun md => md.matches')).flatten

lemma allMatches_filter_nonempty (l : List MatchDay) :
    allMatches (l.filter (fun md => !md.matches'.isEmpty)) = allMatches l := by
  induction l with
  | nil => rfl
  | cons md rest ih =>
    by_cases hmd : md.matches'.isEmpty = true
    · have hnil : md.matches' = [] := by
        cases hc : md.matches' <;> simp_all
      simp [allMatches, List.filter_cons, hmd, hnil] at ih ⊢
      exact ih
    · simp [allMatches, List.filter_cons, hmd] at ih ⊢
      exact ih

lemma allMatches_map_cascade (tid now : Nat) (l : List MatchDay) :
    allMatches (l.map (cascadeMatchDay tid now))
      = (allMatches l).filter (fun m => !matchReferencesTeam tid m) := by
  induction l with
  | nil => rfl
  | cons md rest ih =>
    simp [allMatches, cascadeMatchDay, List.filter_append] at ih ⊢
    exact ih

lemma findMatchesReferencingTeam_eq (tid : Nat) (mds : List MatchDay) :
    findMatchesReferencingTeam tid mds = (allMatches mds).filter (matchReferencesTeam tid) := by
  induction mds with
  | nil => rfl
  | cons md rest ih =>
    simp [findMatchesReferencingTeam, allMatches, List.filter_append] at ih ⊢
    exact ih

/-- C2.  Deleting the team at a valid index removes exactly the matches
referencing it (all other matches survive verbatim, in order), removes
the team itself, and — whenever at least one match referenced the team —
leaves no matchday with an empty match list. -/
theorem C2_team_deletion_cascade (st : AppState) (i now : Nat)
    (h : i < st.teams.length) :
    (removeTeam i now st).teams = st.teams.eraseIdx i
    ∧ allMatches (removeTeam i now st).matchDays
        = (allMatches st.matchDays).filter
            (fun m => !matchReferencesTeam (st.teams.get ⟨i, h⟩).id m)
    ∧ ((∃ md ∈ st.matchDays, ∃ m ∈ md.matches',
          matchReferencesTeam (st.teams.get ⟨i, h⟩).id m = true) →
        ∀ md ∈ (removeTeam i now st).matchDays, md.matches' ≠ []) := by
  have hrt : removeTeam i now st =
      { teams := st.teams.eraseIdx i
        matchDays :=
          if (findMatchesReferencingTeam (st.teams.get ⟨i, h⟩).id st.matchDays).isEmpty
          then st.matchDays
          else removeMatchesReferencingTeam (st.teams.get ⟨i, h⟩).id now st.matchDays } := by
    simp [removeTeam, h]
  set tid := (st.teams.get ⟨i, h⟩).id with htid
  refine ⟨by rw [hrt], ?_, ?_⟩
  · rw [hrt]
    by_cases haff : (findMatchesReferencingTeam tid st.matchDays).isEmpty = true
    · have hnone : ∀ m ∈ allMatches st.matchDays, matchReferencesTeam tid m = false := by
        intro m hm
        have : (allMatches st.matchDays).filter (matchReferencesTeam tid) = [] := by
          rw [← findMatchesReferencingTeam_eq]
          cases hc : findMatchesReferencingTeam tid st.matchDays <;> simp_all
        by_contra hcontra
        have hmem : m ∈ (allMatches st.matchDays).filter (matchReferencesTeam tid) :=
          List.mem_filter.mpr ⟨hm, by simpa using hcontra⟩
        simp [this] at hmem
      have : (allMatches st.matchDays).filter (fun m => !matchReferencesTeam tid m)
          = allMatches st.matchDays :=
        List.filter_eq_self.mpr (fun m hm => by simp [hnone m hm])
      simp [haff, this]
    · simp only [haff, if_neg, Bool.not_eq_true]
      show allMatches ((st.matchDays.map (cascadeMatchDay tid now)).filter
          (fun md => !md.matches'.isEmpty)) = _
      rw [allMatches_filter_nonempty, allMatches_map_cascade]
  · intro hex md hmd
    have haff : (findMatchesReferencingTeam tid st.matchDays).isEmpty = false := by
      obtain ⟨md0, hmd0, m0, hm0, href⟩ := hex
      have hmem : m0 ∈ findMatchesReferencingTeam tid st.matchDays := by
        rw [findMatchesReferencingTeam_eq]
        refine List.mem_filter.mpr ⟨?_, href⟩
        simp only [allMatches, List.mem_flatten]
        exact ⟨md0.matches', List.mem_map.mpr ⟨md0, hmd0, rfl⟩, hm0⟩
      cases hc : findMatchesReferencingTeam tid st.matchDays <;> simp_all
    rw [hrt] at hmd
    simp only [haff, Bool.false_eq_true, if_false] at hmd
    have := (List.mem_filter.mp hmd).2
    cases hc : md.matches' <;> simp_all

/-- Spec Scenario A: teams `[teamA, teamB, teamC]`, one matchday holding
the single match `teamA` vs `teamB`. -/
def dayAB : MatchDay :=
  { id := 201, date := 40, name := "Week 1", matches' := [matchAB],
    notes := "", lastModified := 5 }

def stScenarioA : AppState :=
  { teams := [teamA, teamB, teamC], matchDays := [dayAB] }

/-- Witness for C2: deleting `teamB` (index 1) in Scenario A removes the
one match referencing it and the matchday it emptied. -/
theorem C2_team_deletion_cascade_witness :
    ((removeTeam 1 7 stScenarioA).teams = stScenarioA.teams.eraseIdx 1
      ∧ allMatches (removeTeam 1 7 stScenarioA).matchDays
          = (allMatches stScenarioA.matchDays).filter
              (fun m => !matchReferencesTeam (stScenarioA.teams.get ⟨1, by decide⟩).id m)
      ∧ ((∃ md ∈ stScenarioA.matchDays, ∃ m ∈ md.matches',
            matchReferencesTeam (stScenarioA.teams.get ⟨1, by decide⟩).id m = true) →
          ∀ md ∈ (removeTeam 1 7 stScenarioA).matchDays, md.matches' ≠ []))
    ∧ (∀ md ∈ (removeTeam 1 7 stScenarioA).matchDays, md.matches' ≠ []) :=
  ⟨C2_team_deletion_cascade stScenarioA 1 7 (by decide),
   (C2_team_deletion_cascade stScenarioA 1 7 (by decide)).2.2 (by decide)⟩

/-! Match Creation Guard (`validateTeamReferences`, `addMatchToMatchDay`,
ContentView.swift lines 839-920 and 1312-1328). -/

/-- `validateTeamReferences(homeTeamId:awayTeamId:)`: both ids must be in
the current team id set.  Note: the source has no
`homeTeamId == awayTeamId` check. -/
def validateTeamReferences (teams : List Team) (homeTeamId awayTeamId : Nat) : Bool :=
  (validTeamIds teams).contains homeTeamId && (validTeamIds teams).contains awayTeamId

/-- The `firstIndex(where: id == matchDayId)` + append step of
`addMatchToMatchDay`: append to the first matchday with the given id and
touch its `lastModified`; `none` when no matchday has that id. -/
def appendMatchToDay (m : Match) (matchDayId now : Nat) :
    List MatchDay → Option (List MatchDay)
  | [] => none
  | md :: rest =>
    if md.id == matchDayId then
      some ({ md with matches' := md.matches' ++ [m], lastModified := now } :: rest)
    else
      (appendMatchToDay m matchDayId now rest).map (fun l => md :: l)

/-- `addMatchToMatchDay` (ContentView.swift lines 839-920): reject when
`validateTeamReferences` fails (state untouched, `false`); otherwise
append to the target matchday, or — recovery path — append a fresh
"Recovered Match Day" (fresh id `recoveredId`, dated `now`) holding the
match.  The boolean is `true` exactly when the match was added. -/
def addMatchToMatchDay (m : Match) (matchDayId now recoveredId : Nat)
    (st : AppState) : AppState × Bool :=
  if validateTeamReferences st.teams m.homeTeamId m.awayTeamId then
    match appendMatchToDay m matchDayId now st.matchDays with
    | some mds => ({ st with matchDays := mds }, true)
    | none =>
      let newMatchDay : MatchDay :=
        { id := recoveredId, date := now, name := "Recovered Match Day",
          matches' := [m], notes := "", lastModified := now }
      ({ st with matchDays := st.matchDays ++ [newMatchDay] }, true)
  else (st, false)

/-- A self-match between team 1 and itself. -/
def matchSelf : Match :=
  { id := 103, homeTeamId := 1, awayTeamId := 1, scheduledTime := 61, field := "Field A",
    status := MatchStatus.scheduled, homeTeamPresent := 0, awayTeamPresent := 0,
    homeTeamPresentPlayers := [], awayTeamPresentPlayers := [],
    homeTeamScore := none, awayTeamScore := none }

/-- Counterexample to C3 as stated: adding a match with
`homeTeamId == awayTeamId` (both equal to the known team id 1) is NOT
rejected — the guard passes, the match is appended and the matchday is
mutated. -/
theorem C3_creation_guard_counterexample :
    matchSelf.homeTeamId = matchSelf.awayTeamId
    ∧ matchSelf.homeTeamId ∈ validTeamIds stScenarioA.teams
    ∧ (addMatchToMatchDay matchSelf 201 8 99 stScenarioA).2 = true
    ∧ (addMatchToMatchDay matchSelf 201 8 99 stScenarioA).1.matchDays
        = [{ dayAB with matches' := [matchAB, matchSelf], lastModified := 8 }] := by
  refine ⟨rfl, by decide, by decide, by decide⟩

/-- C3 (amended).  The guard rejects — leaving the state untouched —
exactly when the home or away id is absent from the current team id set;
the `homeTeamId == awayTeamId` case is not checked and, with a known
team id, is accepted. -/
theorem C3_creation_guard_amended (m : Match) (matchDayId now recoveredId : Nat)
    (st : AppState) :
    ((m.homeTeamId ∉ validTeamIds st.teams ∨ m.awayTeamId ∉ validTeamIds st.teams) →
      addMatchToMatchDay m matchDayId now recoveredId st = (st, false))
    ∧ (m.homeTeamId = m.awayTeamId → m.homeTeamId ∈ validTeamIds st.teams →
      (addMatchToMatchDay m matchDayId now recoveredId st).2 = true) := by
  constructor
  · intro h
    have hguard : validateTeamReferences st.teams m.homeTeamId m.awayTeamId = false := by
      rcases h with h | h
      · simp [validateTeamReferences, h]
      · simp [validateTeamReferences, h]
    simp [addMatchToMatchDay, hguard]
  · intro heq hmem
    have hguard : validateTeamReferences st.teams m.homeTeamId m.awayTeamId = true := by
      simp [validateTeamReferences, hmem, ← heq]
    simp only [addMatchToMatchDay, hguard, if_true]
    cases appendMatchToDay m matchDayId now st.matchDays <;> simp

/-- Witness for the amended C3: adding the dangling match (unknown home
team id 9) to Scenario A is rejected with no mutation, and the
self-match on team 1 is accepted. -/
theorem C3_creation_guard_amended_witness :
    addMatchToMatchDay matchDangling 201 8 99 stScenarioA = (stScenarioA, false)
    ∧ (addMatchToMatchDay matchSelf 201 8 99 stScenarioA).2 = true :=
  ⟨(C3_creation_guard_amended matchDangling 201 8 99 stScenarioA).1 (by decide),
   (C3_creation_guard_amended matchSelf 201 8 99 stScenarioA).2 rfl (by decide)⟩

/-! Staleness comparison (`areTeamsEqual`, `areMatchDaysEqual`,
ContentView.swift lines 1268-1307). -/

/-- The inner player loop of `areTeamsEqual`: walk `team1.players` by
index; any position past the end of `team2.players`, or any player whose
name, jersey number or id differs, makes the teams unequal. -/
def playersPairwiseEqual : List Player → List Player → Bool
  | [], _ => true
  | _ :: _, [] => false
  | p1 :: r1, p2 :: r2 =>
    (p1.name == p2.name && p1.jerseyNumber == p2.jerseyNumber && p1.id == p2.id)
      && playersPairwiseEqual r1 r2

/-- The per-team body of `areTeamsEqual` once the partner with the same
id has been found. -/
def teamEntryEqual (t1 t2 : Team) : Bool :=
  if t1.lastModified != t2.lastModified || t1.name != t2.name
      || t1.players.length != t2.players.length then false
  else playersPairwiseEqual t1.players t2.players

/-- `areTeamsEqual` (ContentView.swift lines 1268-1294). -/
def areTeamsEqual (ts1 ts2 : List Team) : Bool :=
  ts1.length == ts2.length
    && ts1.all (fun t1 =>
        match ts2.find? (fun t2 => t2.id == t1.id) with
        | none => false
        | some t2 => teamEntryEqual t1 t2)

/-- `areMatchDaysEqual` (ContentView.swift lines 1296-1307). -/
def areMatchDaysEqual (mds1 mds2 : List MatchDay) : Bool :=
  mds1.length == mds2.length
    && mds1.all (fun md1 =>
        match mds2.find? (fun md2 => md2.id == md1.id) with
        | none => false
        | some md2 =>
          md1.lastModified == md2.lastModified
            && md1.matches'.length == md2.matches'.length)

/-- `teamA` with only its display name changed. -/
def teamARenamed : Team := { teamA with name := "Panthers" }

/-- Counterexample to C7 as stated: two Team values agreeing on id,
lastModified and player count are still deemed UNEQUAL when their names
differ — the comparison checks more than the claim says. -/
theorem C7_staleness_counterexample :
    teamA.id = teamARenamed.id
    ∧ teamA.lastModified = teamARenamed.lastModified
    ∧ teamA.players.length = teamARenamed.players.length
    ∧ areTeamsEqual [teamA] [teamARenamed] = false := by
  decide

lemma teamEntryEqual_eq (t1 t2 : Team) :
    teamEntryEqual t1 t2
      = (t1.lastModified == t2.lastModified && t1.name == t2.name
          && t1.players.length == t2.players.length
          && playersPairwiseEqual t1.players t2.players) := by
  unfold teamEntryEqual
  cases hlm : t1.lastModified == t2.lastModified
  <;> cases hn : t1.name == t2.name
  <;> cases hp : t1.players.length == t2.players.length
  <;> simp [bne, hlm, hn, hp]

/-- C7 (amended).  On a pair of MatchDay values the comparison is
exactly "id, lastModified and match count all agree"; on a pair of Team
values it additionally requires the names to agree and the rosters to
agree position-by-position on player id, name and jersey number. -/
theorem C7_staleness_amended (t1 t2 : Team) (md1 md2 : MatchDay) :
    (areMatchDaysEqual [md1] [md2] = true ↔
      md1.id = md2.id ∧ md1.lastModified = md2.lastModified
        ∧ md1.matches'.length = md2.matches'.length)
    ∧ (areTeamsEqual [t1] [t2] = true ↔
      t1.id = t2.id ∧ t1.lastModified = t2.lastModified ∧ t1.name = t2.name
        ∧ t1.players.length = t2.players.length
        ∧ playersPairwiseEqual t1.players t2.players = true) := by
  constructor
  · cases hbeq : md2.id == md1.id with
    | false =>
      have h1 : ¬ md1.id = md2.id := by
        intro h
        rw [h] at hbeq
        simp at hbeq
      simp [areMatchDaysEqual, List.find?, hbeq, h1]
    | true =>
      have h1 : md1.id = md2.id := (beq_iff_eq.mp hbeq).symm
      simp [areMatchDaysEqual, List.find?, hbeq, h1, and_assoc]
  · cases hbeq : t2.id == t1.id with
    | false =>
      have h1 : ¬ t1.id = t2.id := by
        intro h
        rw [h] at hbeq
        simp at hbeq
      simp [areTeamsEqual, List.find?, hbeq, h1]
    | true =>
      have h1 : t1.id = t2.id := (beq_iff_eq.mp hbeq).symm
      simp [areTeamsEqual, List.find?, hbeq, h1, teamEntryEqual_eq, and_assoc]

/-! Per-match attendance mutations (`togglePlayerPresenceForMatch`,
`updateMatchPresence`, ContentView.swift lines 938-990 and 1050-1065). -/

/-- `TeamSide` (ContentView.swift). -/
inductive TeamSide where
  | home
  | away
deriving DecidableEq

/-- Swift `Set<UUID>` toggle: remove the id when present, insert it when
absent. -/
def toggleSet (pid : Nat) (s : List Nat) : List Nat :=
  if s.contains pid then s.filter (fun x => x != pid) else pid :: s

/-- The body of `togglePlayerPresenceForMatch` on the located match:
toggle the chosen side's present-player set, then recompute BOTH derived
counts from the set sizes. -/
def toggleMatchPresence (pid : Nat) (side : TeamSide) (m : Match) : Match :=
  let m1 :=
    match side with
    | TeamSide.home =>
        { m with homeTeamPresentPlayers := toggleSet pid m.homeTeamPresentPlayers }
    | TeamSide.away =>
        { m with awayTeamPresentPlayers := toggleSet pid m.awayTeamPresentPlayers }
  { m1 with
    homeTeamPresent := m1.homeTeamPresentPlayers.length
    awayTeamPresent := m1.awayTeamPresentPlayers.length }

/-- Locate the first match with the given id in a match list and toggle
it; `none` when the id is absent (the source then moves to the next
matchday). -/
def toggleInMatches (pid matchId : Nat) (side : TeamSide) :
    List Match → Option (List Match)
  | [] => none
  | m :: rest =>
    if m.id == matchId then some (toggleMatchPresence pid side m :: rest)
    else (toggleInMatches pid matchId side rest).map (fun l => m :: l)

/-- `togglePlayerPresenceForMatch`: mutate the first match (in matchday
order) carrying the id, touch that matchday's `lastModified`, and stop. -/
def togglePlayerPresenceForMatch (pid matchId : Nat) (side : TeamSide) (now : Nat) :
    List MatchDay → List MatchDay
  | [] => []
  | md :: rest =>
    match toggleInMatches pid matchId side md.matches' with
    | some ms => { md with matches' := ms, lastModified := now } :: rest
    | none => md :: togglePlayerPresenceForMatch pid matchId side now rest

/-- The body of `updateMatchPresence` on the located match: install both
present-player sets and recompute both derived counts. -/
def setMatchPresence (homePresent awayPresent : List Nat) (m : Match) : Match :=
  { m with
    homeTeamPresentPlayers := homePresent
    awayTeamPresentPlayers := awayPresent
    homeTeamPresent := homePresent.length
    awayTeamPresent := awayPresent.length }

/-- Locate the first match with the given id and install the presence
sets; `none` when the id is absent. -/
def setPresenceInMatches (matchId : Nat) (hp ap : List Nat) :
    List Match → Option (List Match)
  | [] => none
  | m :: rest =>
    if m.id == matchId then some (setMatchPresence hp ap m :: rest)
    else (setPresenceInMatches matchId hp ap rest).map (fun l => m :: l)

/-- `updateMatchPresence`: mutate the first match carrying the id, touch
its matchday's `lastModified`, and stop. -/
def updateMatchPresence (matchId : Nat) (hp ap : List Nat) (now : Nat) :
    List MatchDay → List MatchDay
  | [] => []
  | md :: rest =>
    match setPresenceInMatches matchId hp ap md.matches' with
    | some ms => { md with matches' := ms, lastModified := now } :: rest
    | none => md :: updateMatchPresence matchId hp ap now rest

/-- Invariant I3: the derived presence counts equal the present-player
set sizes. -/
def presenceCountsConsistent (m : Match) : Prop :=
  m.homeTeamPresent = m.homeTeamPresentPlayers.length
    ∧ m.awayTeamPresent = m.awayTeamPresentPlayers.length

lemma toggleMatchPresence_consistent (pid : Nat) (side : TeamSide) (m : Match) :
    presenceCountsConsistent (toggleMatchPresence pid side m) := by
  cases side <;> simp [toggleMatchPresence, presenceCountsConsistent]

lemma setMatchPresence_consistent (hp ap : List Nat) (m : Match) :
    presenceCountsConsistent (setMatchPresence hp ap m) := by
  simp [setMatchPresence, presenceCountsConsistent]

lemma toggleInMatches_mem {pid matchId : Nat} {side : TeamSide} :
    ∀ {ms ms' : List Match}, toggleInMatches pid matchId side ms = some ms' →
      ∀ m' ∈ ms', m' ∈ ms ∨ presenceCountsConsistent m'
  | [], _, h => by simp [toggleInMatches] at h
  | m :: rest, ms', h => by
    intro m' hm'
    by_cases hid : (m.id == matchId) = true
    · simp only [toggleInMatches, hid, if_true, Option.some.injEq] at h
      subst h
      rcases List.mem_cons.mp hm' with hm' | hm'
      · exact Or.inr (hm' ▸ toggleMatchPresence_consistent pid side m)
      · exact Or.inl (List.mem_cons_of_mem m hm')
    · cases htog : toggleInMatches pid matchId side rest with
      | none =>
        simp [toggleInMatches, hid, htog] at h
      | some l =>
        simp only [toggleInMatches, hid, htog, Option.map_some', Bool.false_eq_true,
          if_false, Option.some.injEq] at h
        subst h
        rcases List.mem_cons.mp hm' with hm' | hm'
        · exact Or.inl (hm' ▸ List.mem_cons_self m rest)
        · rcases toggleInMatches_mem htog m' hm' with hin | hcons
          · exact Or.inl (List.mem_cons_of_mem m hin)
          · exact Or.inr hcons

lemma setPresenceInMatches_mem {matchId : Nat} {hp ap : List Nat} :
    ∀ {ms ms' : List Match}, setPresenceInMatches matchId hp ap ms = some ms' →
      ∀ m' ∈ ms', m' ∈ ms ∨ presenceCountsConsistent m'
  | [], _, h => by simp [setPresenceInMatches] at h
  | m :: rest, ms', h => by
    intro m' hm'
    by_cases hid : (m.id == matchId) = true
    · simp only [setPresenceInMatches, hid, if_true, Option.some.injEq] at h
      subst h
      rcases List.mem_cons.mp hm' with hm' | hm'
      · exact Or.inr (hm' ▸ setMatchPresence_consistent hp ap m)
      · exact Or.inl (List.mem_cons_of_mem m hm')
    · cases hset : setPresenceInMatches matchId hp ap rest with
      | none =>
        simp [setPresenceInMatches, hid, hset] at h
      | some l =>
        simp only [setPresenceInMatches, hid, hset, Option.map_some', Bool.false_eq_true,
          if_false, Option.some.injEq] at h
        subst h
        rcases List.mem_cons.mp hm' with hm' | hm'
        · exact Or.inl (hm' ▸ List.mem_cons_self m rest)
        · rcases setPresenceInMatches_mem hset m' hm' with hin | hcons
          · exact Or.inl (List.mem_cons_of_mem m hin)
          · exact Or.inr hcons

/-- C8.  After either per-match attendance mutation, every match of the
resulting matchday collection is either an untouched match of the input
or satisfies the presence-count invariant — in particular the mutated
match always does. -/
theorem C8_attendance_counts (pid matchId : Nat) (side : TeamSide) (now : Nat)
    (hp ap : List Nat) (mds : List MatchDay) :
    (∀ md' ∈ togglePlayerPresenceForMatch pid matchId side now mds,
      ∀ m' ∈ md'.matches',
        (∃ md ∈ mds, m' ∈ md.matches') ∨ presenceCountsConsistent m')
    ∧ (∀ md' ∈ updateMatchPresence matchId hp ap now mds,
      ∀ m' ∈ md'.matches',
        (∃ md ∈ mds, m' ∈ md.matches') ∨ presenceCountsConsistent m') := by
  constructor
  · induction mds with
    | nil => simp [togglePlayerPresenceForMatch]
    | cons md rest ih =>
      intro md' hmd' m' hm'
      rw [togglePlayerPresenceForMatch] at hmd'
      cases htog : toggleInMatches pid matchId side md.matches' with
      | some ms =>
        rw [htog] at hmd'
        rcases List.mem_cons.mp hmd' with hmd' | hmd'
        · subst hmd'
          rcases toggleInMatches_mem htog m' hm' with hin | hcons
          · exact Or.inl ⟨md, List.mem_cons_self md rest, hin⟩
          · exact Or.inr hcons
        · exact Or.inl ⟨md', List.mem_cons_of_mem md hmd', hm'⟩
      | none =>
        rw [htog] at hmd'
        rcases List.mem_cons.mp hmd' with hmd' | hmd'
        · exact Or.inl ⟨md, List.mem_cons_self md rest, hmd' ▸ hm'⟩
        · rcases ih md' hmd' m' hm' with ⟨md0, hmd0, hm0⟩ | hcons
          · exact Or.inl ⟨md0, List.mem_cons_of_mem md hmd0, hm0⟩
          · exact Or.inr hcons
  · induction mds with
    | nil => simp [updateMatchPresence]
    | cons md rest ih =>
      intro md' hmd' m' hm'
      rw [updateMatchPresence] at hmd'
      cases hset : setPresenceInMatches matchId hp ap md.matches' with
      | some ms =>
        rw [hset] at hmd'
        rcases List.mem_cons.mp hmd' with hmd' | hmd'
        · subst hmd'
          rcases setPresenceInMatches_mem hset m' hm' with hin | hcons
          · exact Or.inl ⟨md, List.mem_cons_self md rest, hin⟩
          · exact Or.inr hcons
        · exact Or.inl ⟨md', List.mem_cons_of_mem md hmd', hm'⟩
      | none =>
        rw [hset] at hmd'
        rcases List.mem_cons.mp hmd' with hmd' | hmd'
        · exact Or.inl ⟨md, List.mem_cons_self md rest, hmd' ▸ hm'⟩
        · rcases ih md' hmd' m' hm' with ⟨md0, hmd0, hm0⟩ | hcons
          · exact Or.inl ⟨md0, List.mem_cons_of_mem md hmd0, hm0⟩
          · exact Or.inr hcons

/-- Witness for C8: a concrete toggle and a concrete bulk update on
Scenario A's matchday. -/
theorem C8_attendance_counts_witness :
    (∀ md' ∈ togglePlayerPresenceForMatch 9 100 TeamSide.home 3 [dayAB],
      ∀ m' ∈ md'.matches',
        (∃ md ∈ [dayAB], m' ∈ md.matches') ∨ presenceCountsConsistent m')
    ∧ (∀ md' ∈ updateMatchPresence 100 [4, 9] [] 3 [dayAB],
      ∀ m' ∈ md'.matches',
        (∃ md ∈ [dayAB], m' ∈ md.matches') ∨ presenceCountsConsistent m') :=
  C8_attendance_counts 9 100 TeamSide.home 3 [4, 9] [] [dayAB]

/-! The sync layer.  Network outcomes are explicit oracle inputs: a
boolean per POST (did the server answer 200?) and an `Option` per GET
(`none` = transport failure / non-200, `some` = the decoded payload). -/

/-- One round of network weather, as seen by a single sync operation. -/
structure Network where
  teamsPostOk : Bool
  matchdaysPostOk : Bool
  teamsGet : Option (List Team)
  matchdaysGet : Option (List MatchDay)
deriving DecidableEq

/-- `matchDays.sorted { $0.date < $1.date }` — insertion step. -/
def insertByDate (md : MatchDay) : List MatchDay → List MatchDay
  | [] => [md]
  | x :: xs => if md.date < x.date then md :: x :: xs else x :: insertByDate md xs

/-- `matchDays.sorted { $0.date < $1.date }`. -/
def sortByDate (l : List MatchDay) : List MatchDay :=
  l.foldr insertByDate []

/-- `uploadToSeparateEndpoints` (ContentView.swift lines 472-480, and
identically in the enhanced client): POST teams and matchdays
independently (both are always attempted, concurrently) and "consider it
successful if at least one upload worked". -/
def uploadToSeparateEndpoints (net : Network) : Bool :=
  net.teamsPostOk || net.matchdaysPostOk

/-- `fetchFromSeparateEndpoints` (both clients): if both GETs succeed,
use both; otherwise fall back to whatever arrived, but only report data
when something nonempty arrived. -/
def fetchFromSeparateEndpoints (net : Network) : Option AppState :=
  match net.teamsGet, net.matchdaysGet with
  | some ts, some mds => some { teams := ts, matchDays := mds }
  | ot, om =>
    let availableTeams := ot.getD []
    let availableMatchDays := om.getD []
    if !availableTeams.isEmpty || !availableMatchDays.isEmpty then
      some { teams := availableTeams, matchDays := availableMatchDays }
    else none

/-- What one sync operation produced: the resulting in-memory state, the
`syncStatus` message it set, and whether any download (GET) was issued. -/
structure SmartSyncResult where
  state : AppState
  status : String
  downloadAttempted : Bool
deriving DecidableEq

/-- `smartSync` of ContentView.swift (lines 529-547): upload only — no
download is ever issued, on success or failure. -/
def smartSyncContentView (net : Network) (st : AppState) : SmartSyncResult :=
  if uploadToSeparateEndpoints net then
    { state := st, status := "Sync complete: Data uploaded to server",
      downloadAttempted := false }
  else
    { state := st, status := "Server not available - working offline",
      downloadAttempted := false }

/-- `smartSync` of the enhanced client (unnamed Swift source, lines
446-483): upload first; on upload success fetch from the separate
endpoints and install the fetched pair (matchdays sorted by date) when
it is nonempty; on upload failure report working offline and do not
fetch. -/
def smartSyncEnhanced (net : Network) (st : AppState) : SmartSyncResult :=
  if uploadToSeparateEndpoints net then
    match fetchFromSeparateEndpoints net with
    | some serverData =>
      let newState :=
        if !serverData.teams.isEmpty || !serverData.matchDays.isEmpty then
          { teams := serverData.teams, matchDays := sortByDate serverData.matchDays }
        else st
      { state := newState, status := "Sync complete: Data synchronized with server",
        downloadAttempted := true }
    | none =>
      { state := st, status := "Upload complete: Data sent to server",
        downloadAttempted := true }
  else
    { state := st, status := "Server not available - working offline",
      downloadAttempted := false }

/-- Counterexample to C4 as stated: in the primary client
(ContentView.swift) a Smart Sync whose upload succeeds still issues no
download at all. -/
theorem C4_smart_sync_counterexample :
    uploadToSeparateEndpoints
        { teamsPostOk := true, matchdaysPostOk := true,
          teamsGet := some [teamA], matchdaysGet := some [] } = true
    ∧ (smartSyncContentView
        { teamsPostOk := true, matchdaysPostOk := true,
          teamsGet := some [teamA], matchdaysGet := some [] }
        { teams := [teamA], matchDays := [] }).downloadAttempted = false := by
  decide

/-- C4 (amended).  The enhanced client's Smart Sync is upload-then-
download; ContentView's Smart Sync uploads only and never downloads; in
both clients, when the upload fails entirely the operation reports
"working offline", attempts no download, and leaves the in-memory state
untouched. -/
theorem C4_smart_sync_amended (net : Network) (st : AppState) :
    (uploadToSeparateEndpoints net = false →
      smartSyncEnhanced net st
          = { state := st, status := "Server not available - working offline",
              downloadAttempted := false }
        ∧ smartSyncContentView net st
          = { state := st, status := "Server not available - working offline",
              downloadAttempted := false })
    ∧ (uploadToSeparateEndpoints net = true →
        (smartSyncEnhanced net st).downloadAttempted = true)
    ∧ (smartSyncContentView net st).downloadAttempted = false := by
  refine ⟨fun hfail => ⟨?_, ?_⟩, fun hok => ?_, ?_⟩
  · simp [smartSyncEnhanced, hfail]
  · simp [smartSyncContentView, hfail]
  · cases hfetch : fetchFromSeparateEndpoints net <;>
      simp [smartSyncEnhanced, hok, hfetch]
  · by_cases hup : uploadToSeparateEndpoints net = true <;>
      simp [smartSyncContentView, hup]

/-- A network where every request fails. -/
def deadNetwork : Network :=
  { teamsPostOk := false, matchdaysPostOk := false,
    teamsGet := none, matchdaysGet := none }

/-- A network where every request succeeds, serving Scenario A's data. -/
def liveNetwork : Network :=
  { teamsPostOk := true, matchdaysPostOk := true,
    teamsGet := some [teamA, teamB, teamC], matchdaysGet := some [dayAB] }

/-- Witness for the amended C4: a dead network (both POSTs fail) leaves
both clients offline and untouched; a live one makes the enhanced client
download while ContentView's still does not. -/
theorem C4_smart_sync_amended_witness :
    (smartSyncEnhanced deadNetwork stScenarioA
        = { state := stScenarioA,
            status := "Server not available - working offline",
            downloadAttempted := false }
      ∧ smartSyncContentView deadNetwork stScenarioA
        = { state := stScenarioA,
            status := "Server not available - working offline",
            downloadAttempted := false })
    ∧ (smartSyncEnhanced liveNetwork stScenarioA).downloadAttempted = true
    ∧ (smartSyncContentView liveNetwork stScenarioA).downloadAttempted = false :=
  ⟨(C4_smart_sync_amended deadNetwork stScenarioA).1 (by decide),
   (C4_smart_sync_amended liveNetwork stScenarioA).2.1 (by decide),
   (C4_smart_sync_amended liveNetwork stScenarioA).2.2⟩

/-! Download paths (`downloadFromServer`, ContentView.swift lines
600-643, and the silent refresh, lines 1164-1208). -/

/-- The duplicate-removal step
`Dictionary(grouping:by:{$0.id}).compactMapValues{$0.first}.values`:
keep the first element carrying each id.  (Swift's `Dictionary.values`
order is unspecified; first-occurrence order is one admissible
linearisation, and nothing below depends on the order.) -/
def dedupByIdAux {α : Type} (getId : α → Nat) : List α → List Nat → List α
  | [], _ => []
  | x :: rest, seen =>
    if seen.contains (getId x) then dedupByIdAux getId rest seen
    else x :: dedupByIdAux getId rest (getId x :: seen)

def dedupById {α : Type} (getId : α → Nat) (l : List α) : List α :=
  dedupByIdAux getId l []

/-- `downloadFromServer` (ContentView.swift lines 600-643): fetch teams
(abort, keeping prior state, on failure), replace the local teams with
the deduplicated fetch; then fetch matchdays (abort on failure), replace
the local matchdays with the deduplicated fetch sorted by date.  No
reference validation is performed on either replacement.  (The
interpolated counts in the status strings are omitted.) -/
def downloadFromServer (net : Network) (st : AppState) : AppState × String :=
  match net.teamsGet with
  | none => (st, "Failed to download teams from server")
  | some downloadedTeams =>
    let st1 := { st with teams := dedupById Team.id downloadedTeams }
    match net.matchdaysGet with
    | none => (st1, "Failed to download match days from server")
    | some downloadedMatchDays =>
      ({ st1 with matchDays := sortByDate (dedupById MatchDay.id downloadedMatchDays) },
       "Download complete")

/-- The teams half of `refreshFromServer`: replace the local teams with
the fetched ones only when the staleness comparison says they differ. -/
def refreshTeamsStep (net : Network) (st : AppState) : AppState :=
  match net.teamsGet with
  | some serverTeams =>
      if areTeamsEqual st.teams serverTeams then st
      else { st with teams := serverTeams }
  | none => st

/-- `refreshFromServer` (ContentView.swift lines 1164-1208): refresh
teams, then — when the fetched matchdays (sorted) differ from the local
ones per the staleness comparison — install
`validateAndFixTeamReferences` of the sorted fetch, run against the
teams now in state. -/
def refreshFromServer (net : Network) (now : Nat) (st : AppState) : AppState :=
  let st1 := refreshTeamsStep net st
  match net.matchdaysGet with
  | some serverMatchDays =>
      let sortedMatchDays := sortByDate serverMatchDays
      if areMatchDaysEqual st1.matchDays sortedMatchDays then st1
      else { st1 with
             matchDays := validateAndFixTeamReferences st1.teams now sortedMatchDays }
  | none => st1

/-- A network serving `[teamA, teamB]` and the matchday that still holds
the dangling match (home team id 9). -/
def netDangling : Network :=
  { teamsPostOk := true, matchdaysPostOk := true,
    teamsGet := some [teamA, teamB], matchdaysGet := some [dayOne] }

/-- Counterexample to C5 as stated: `downloadFromServer` installs the
fetched matchdays without any reference validation, so a match whose
home team id is absent from the just-installed teams ends up in local
state. -/
theorem C5_download_validation_counterexample :
    ∃ md ∈ (downloadFromServer netDangling stScenarioA).1.matchDays,
      ∃ m ∈ md.matches',
        m.homeTeamId ∉ validTeamIds (downloadFromServer netDangling stScenarioA).1.teams := by
  decide

/-- C5 (amended).  Only the silent refresh path validates: whenever
`refreshFromServer` actually installs fetched matchdays (the staleness
comparison reported a difference), the installed matchdays contain no
match with a dangling team reference relative to the teams then in
state.  `downloadFromServer` installs fetched matchdays unvalidated. -/
theorem C5_download_validation_amended (net : Network) (now : Nat) (st : AppState)
    (mds : List MatchDay) (hget : net.matchdaysGet = some mds)
    (hne : areMatchDaysEqual (refreshTeamsStep net st).matchDays (sortByDate mds) = false) :
    ∀ md ∈ (refreshFromServer net now st).matchDays,
      ∀ m ∈ md.matches',
        m.homeTeamId ∈ validTeamIds (refreshFromServer net now st).teams
          ∧ m.awayTeamId ∈ validTeamIds (refreshFromServer net now st).teams := by
  have hres : refreshFromServer net now st
      = { refreshTeamsStep net st with
          matchDays := validateAndFixTeamReferences (refreshTeamsStep net st).teams now
            (sortByDate mds) } := by
    simp [refreshFromServer, hget, hne]
  rw [hres]
  intro md hmd m hm
  exact (mem_validateAndFix hmd).1 m hm

/-- Witness for the amended C5: refreshing an empty client against
`netDangling` installs `fixedDayOne` (the dangling match is gone), and
the surviving match `matchAB` references only installed teams. -/
theorem C5_download_validation_amended_witness :
    matchAB.homeTeamId ∈ validTeamIds (refreshFromServer netDangling 7
        { teams := [], matchDays := [] }).teams
      ∧ matchAB.awayTeamId ∈ validTeamIds (refreshFromServer netDangling 7
          { teams := [], matchDays := [] }).teams :=
  C5_download_validation_amended netDangling 7 { teams := [], matchDays := [] }
    [dayOne] rfl (by decide) fixedDayOne (by decide) matchAB (by decide)

/-! The server side (unnamed Node source): the two persisted JSON
documents and the handlers the claims touch.  `writeJSONFile` returns
`false` on an I/O error and leaves the old file content in place; the
error oracle for each write is an explicit boolean. -/

/-- The server's two document files, `teams.json` and `matchdays.json`. -/
structure ServerStore where
  teamsDoc : List Team
  matchdaysDoc : List MatchDay
deriving DecidableEq

/-- `POST /api/teams` composed with transport: on success the whole
teams document is replaced (`writeJSONFile`) and the client sees 200
(`true`); on failure the document is untouched and the client sees
failure. -/
def postTeams (ok : Bool) (ts : List Team) (s : ServerStore) : ServerStore × Bool :=
  if ok then ({ s with teamsDoc := ts }, true) else (s, false)

/-- `POST /api/matchdays` composed with transport: the handler sorts the
body by date before writing the whole document. -/
def postMatchdays (ok : Bool) (mds : List MatchDay) (s : ServerStore) : ServerStore × Bool :=
  if ok then ({ s with matchdaysDoc := sortByDate mds }, true) else (s, false)

/-- `uploadToSeparateEndpoints` together with its effect on the server
documents: both POSTs are always issued (the source launches them
concurrently with `async let`), and the operation reports success when
at least one of them succeeded. -/
def uploadToSeparateEndpointsStore (okT okM : Bool) (d : AppState) (s : ServerStore) :
    ServerStore × Bool :=
  let r1 := postTeams okT d.teams s
  let r2 := postMatchdays okM d.matchDays r1.1
  (r2.1, r1.2 || r2.2)

/-- C6.  Upload reports success iff at least one of the two document
writes succeeded; each successful write lands regardless of the other's
outcome (no blocking, no rollback), and each failed write leaves its
document untouched. -/
theorem C6_upload_best_effort (okT okM : Bool) (d : AppState) (s : ServerStore) :
    ((uploadToSeparateEndpointsStore okT okM d s).2 = true ↔ okT = true ∨ okM = true)
    ∧ (okT = true →
        (uploadToSeparateEndpointsStore okT okM d s).1.teamsDoc = d.teams)
    ∧ (okM = true →
        (uploadToSeparateEndpointsStore okT okM d s).1.matchdaysDoc
          = sortByDate d.matchDays)
    ∧ (okT = false →
        (uploadToSeparateEndpointsStore okT okM d s).1.teamsDoc = s.teamsDoc)
    ∧ (okM = false →
        (uploadToSeparateEndpointsStore okT okM d s).1.matchdaysDoc = s.matchdaysDoc) := by
  cases okT <;> cases okM <;>
    simp [uploadToSeparateEndpointsStore, postTeams, postMatchdays]

/-- An initially empty pair of server documents. -/
def emptyStore : ServerStore := { teamsDoc := [], matchdaysDoc := [] }

/-- Witness for C6: with the teams write succeeding and the matchdays
write failing, the upload still reports success, the teams document was
replaced, and the matchdays document kept its old value. -/
theorem C6_upload_best_effort_witness :
    (uploadToSeparateEndpointsStore true false stScenarioA emptyStore).2 = true
    ∧ (uploadToSeparateEndpointsStore true false stScenarioA emptyStore).1.teamsDoc
        = stScenarioA.teams
    ∧ (uploadToSeparateEndpointsStore true false stScenarioA emptyStore).1.matchdaysDoc
        = emptyStore.matchdaysDoc :=
  ⟨(C6_upload_best_effort true false stScenarioA emptyStore).1.mpr (Or.inl rfl),
   (C6_upload_best_effort true false stScenarioA emptyStore).2.1 rfl,
   (C6_upload_best_effort true false stScenarioA emptyStore).2.2.2.2 rfl⟩

/-- `POST /api/sync` (unnamed Node source, lines 259-285): reject
non-array bodies with 400; otherwise write the teams file, then the
matchdays file (no sorting on this path), and answer 200 only when both
writes succeeded, 500 otherwise.  Neither write is rolled back when the
other fails. -/
def apiSyncPost (okT okM : Bool) (teamsBody : Option (List Team))
    (matchDaysBody : Option (List MatchDay)) (s : ServerStore) : ServerStore × Nat :=
  match teamsBody, matchDaysBody with
  | some ts, some mds =>
    let r1 := if okT then ({ s with teamsDoc := ts }, true) else (s, false)
    let r2 := if okM then ({ r1.1 with matchdaysDoc := mds }, true) else (r1.1, false)
    if r1.2 && r2.2 then (r2.1, 200) else (r2.1, 500)
  | _, _ => (s, 400)

/-- C10.  A sync POST with valid array bodies whose teams write succeeds
and whose matchdays write fails answers 500 with the teams document
already replaced — the successful write is not rolled back. -/
theorem C10_sync_no_rollback (ts : List Team) (mds : List MatchDay) (s : ServerStore) :
    apiSyncPost true false (some ts) (some mds) s = ({ s with teamsDoc := ts }, 500) := by
  simp [apiSyncPost]

end RefPASS
